import Mathlib

/-!
Verification of the agentic tool-use orchestration loop and search-tool
logic of the course-materials RAG backend.

The first part embeds `backend/ai_generator.py` (class `AIGenerator`):
the bounded multi-round LLM/tool loop of `generate_response`, the helper
`_execute_tools_and_update_messages`, and `_extract_text_response`.
The LLM client is modelled as a stream of responses indexed by call
number (call 0 is the first `messages.create` invocation), and the tool
manager as a function that either returns a result string or fails
(`none` models a raised exception).  `generate_response` returns, besides
the result string, the trace of API calls issued and of tool-dispatch
batches performed, so that call counts and message contents can be
stated.

The second part models `backend/search_tools.py` (`CourseSearchTool`,
`ToolManager`), whose source file is not part of the material under
verification; those definitions are modelled from the spec, as marked
in their doc comments.
-/

/-- A tool-use content block of an LLM response: invocation id, tool
name, and keyword-argument mapping (`content_block.id`,
`content_block.name`, `content_block.input`). -/
structure ToolUse where
  id : String
  name : String
  input : List (String × String)
deriving Repr, DecidableEq

/-- A content block of an LLM response: either a text block (which has a
`text` attribute) or a tool-use block (which does not). -/
inductive ContentBlock where
  | text (t : String)
  | toolUse (u : ToolUse)
deriving Repr, DecidableEq

/-- An LLM response: `stop_reason` plus the list of content blocks. -/
structure Response where
  stop_reason : String
  content : List ContentBlock
deriving Repr, DecidableEq

/-- A `tool_result` entry sent back to the LLM: the id of the invocation
it answers plus the tool's result text. -/
structure ToolResult where
  tool_use_id : String
  content : String
deriving Repr, DecidableEq

/-- The content of one conversation turn: plain text, the content blocks
of an assistant response, or a list of tool results. -/
inductive MessageContent where
  | text (s : String)
  | blocks (bs : List ContentBlock)
  | toolResults (rs : List ToolResult)
deriving Repr, DecidableEq

/-- One conversation turn: role (`"user"` or `"assistant"`) and content. -/
structure Message where
  role : String
  content : MessageContent
deriving Repr, DecidableEq

/-- The tool manager seen by the orchestrator: `execute_tool` takes a
tool name and keyword arguments and returns a result string; `none`
models a raised exception. -/
def ExecuteToolFn : Type := String → List (String × String) → Option String

/-- The record of one `messages.create` API call: the messages passed,
and the `tools` / `tool_choice` parameters (`none` when the parameter
was not attached to the call). -/
structure ApiCall where
  messages : List Message
  tools : Option (List String)
  tool_choice : Option String
deriving Repr, DecidableEq

/-- The outcome of a `generate_response` run: the returned string, the
trace of API calls issued (in order), and the trace of tool-dispatch
batches (in order, one entry per round that dispatched tools). -/
structure GenResult where
  result : String
  apiCalls : List ApiCall
  toolBatches : List (List ToolUse)
deriving Repr, DecidableEq

/-- `AIGenerator._extract_text_response`: return the `text` of the first
content block that has a `text` attribute, or `""` when none has. -/
def extract_text_response : List ContentBlock → String
  | [] => ""
  | ContentBlock.text t :: _ => t
  | ContentBlock.toolUse _ :: rest => extract_text_response rest

/-- The dispatch loop inside `_execute_tools_and_update_messages`
(lines 151-163): walk the content blocks in order, dispatch each
`tool_use` block through the tool manager, and collect one `tool_result`
per dispatched invocation.  Returns the list of invocations actually
dispatched and, when no dispatch raised, the collected results; a raised
exception (`none` from the manager) aborts the walk with `none`. -/
def runToolBlocks (tm : ExecuteToolFn) : List ContentBlock → List ToolUse × Option (List ToolResult)
  | [] => ([], some [])
  | ContentBlock.text _ :: rest => runToolBlocks tm rest
  | ContentBlock.toolUse u :: rest =>
    match tm u.name u.input with
    | none => ([u], none)
    | some r =>
      let (ds, res) := runToolBlocks tm rest
      (u :: ds, res.map (fun rs => ⟨u.id, r⟩ :: rs))

/-- `AIGenerator._execute_tools_and_update_messages`: append the
assistant's tool-use turn, dispatch every `tool_use` block in order, and
on success append one user turn bundling all tool results.  Returns the
success flag, the updated messages, and the batch of dispatched
invocations; an exception or an empty result list yields `false`. -/
def execute_tools_and_update_messages (tm : ExecuteToolFn) (response : Response)
    (messages : List Message) : Bool × List Message × List ToolUse :=
  let messages1 := messages ++ [⟨"assistant", MessageContent.blocks response.content⟩]
  let (dispatched, results) := runToolBlocks tm response.content
  match results with
  | none => (false, messages1, dispatched)
  | some [] => (false, messages1, dispatched)
  | some rs => (true, messages1 ++ [⟨"user", MessageContent.toolResults rs⟩], dispatched)

/-- The API-call record built inside the loop (lines 81-90): the
`tools` and `tool_choice` parameters are attached exactly when the
supplied tool list is non-empty (Python truthiness of `if tools:`). -/
def mkToolCall (tools : List String) (messages : List Message) : ApiCall :=
  if tools.isEmpty then ⟨messages, none, none⟩ else ⟨messages, some tools, some "auto"⟩

/-- The `while rounds_completed < max_rounds` loop of
`AIGenerator.generate_response` (lines 79-129), with
`fuel = max_rounds - rounds_completed` and `callIdx` the index of the
next API call.  When fuel runs out, one final API call is issued with no
`tools` / `tool_choice` parameters and its text returned. -/
def genLoop (client : Nat → Response) (tools : List String)
    (tool_manager : Option ExecuteToolFn) :
    Nat → Nat → List Message → GenResult
  | 0, callIdx, messages =>
    let response := client callIdx
    ⟨extract_text_response response.content, [⟨messages, none, none⟩], []⟩
  | fuel + 1, callIdx, messages =>
    let call := mkToolCall tools messages
    let response := client callIdx
    if response.stop_reason ≠ "tool_use" then
      ⟨extract_text_response response.content, [call], []⟩
    else
      match tool_manager with
      | none => ⟨extract_text_response response.content, [call], []⟩
      | some tm =>
        let (success, messages2, dispatched) :=
          execute_tools_and_update_messages tm response messages
        if success then
          let r := genLoop client tools tool_manager fuel (callIdx + 1) messages2
          ⟨r.result, call :: r.apiCalls, dispatched :: r.toolBatches⟩
        else
          ⟨"Error executing tools. Please try again.", [call], [dispatched]⟩

/-- `AIGenerator.generate_response`: seed the conversation with the
user's query and run the bounded tool loop. -/
def generate_response (client : Nat → Response) (query : String) (tools : List String)
    (tool_manager : Option ExecuteToolFn) (max_rounds : Nat) : GenResult :=
  genLoop client tools tool_manager max_rounds 0 [⟨"user", MessageContent.text query⟩]

/-- The tool invocations of a response's content, in block order. -/
def toolUses (content : List ContentBlock) : List ToolUse :=
  content.filterMap (fun b =>
    match b with
    | ContentBlock.toolUse u => some u
    | ContentBlock.text _ => none)

/-- The tool results produced when every dispatch succeeds: one per
invocation, in invocation order, carrying the invocation's id. -/
def toolResultsOf (tm : ExecuteToolFn) (content : List ContentBlock) : List ToolResult :=
  (toolUses content).map (fun u => ⟨u.id, (tm u.name u.input).getD ""⟩)

/-- Whether a round's tool dispatch succeeds: no dispatch raises and at
least one tool result is collected. -/
def dispatchOk (tm : ExecuteToolFn) (content : List ContentBlock) : Bool :=
  match (runToolBlocks tm content).2 with
  | some (_ :: _) => true
  | _ => false

/-- The messages after a successful tool round: the previous messages,
the assistant's tool-use turn, then one user turn with all results. -/
def nextMessages (tm : ExecuteToolFn) (response : Response)
    (messages : List Message) : List Message :=
  messages ++ [⟨"assistant", MessageContent.blocks response.content⟩,
               ⟨"user", MessageContent.toolResults (toolResultsOf tm response.content)⟩]

/-- Modelled from the spec: per-result metadata — course title, optional
lesson number, chunk index. -/
structure DocMetadata where
  course_title : String
  lesson_number : Option Nat
  chunk_index : Nat
deriving Repr, DecidableEq

/-- Modelled from the spec: the Search Result Set of the Search Provider
interface (the repository's `vector_store.py` `SearchResults` is not
under verification): ordered documents with per-document metadata and
distances, or an error marker. -/
structure SearchResults where
  documents : List String
  metadata : List DocMetadata
  distances : List Rat
  error : Option String

/-- Modelled from the spec: a Citation Source — display text plus an
optional resolvable link (the repository's `models.py` `Source` is not
under verification). -/
structure Source where
  text : String
  url : Option String
deriving Repr, DecidableEq

/-- Modelled from the spec: the Search Provider / link-lookup
collaborator consumed by the Course Search Tool. -/
structure VectorStore where
  search : String → Option String → Option Nat → SearchResults
  get_lesson_link : String → Nat → Option String

/-- Modelled from the spec: the Course Search Tool — holds its provider
and its owned citation state `last_sources` (the repository's
`search_tools.py` `CourseSearchTool` is not under verification; state is
passed explicitly). -/
structure CourseSearchTool where
  store : VectorStore
  last_sources : List Source

/-- Modelled from the spec: the Citation Source built for one result —
display text `"<course title>"` or `"<course title> - Lesson <n>"` when
a lesson number is present, with the link resolved through the lookup
collaborator when a lesson number is available. -/
def sourceFor (store : VectorStore) (m : DocMetadata) : Source :=
  match m.lesson_number with
  | some n => ⟨m.course_title ++ " - Lesson " ++ toString n, store.get_lesson_link m.course_title n⟩
  | none => ⟨m.course_title, none⟩

/-- Modelled from the spec: the labeled header of one formatted result
block, identifying the source course and, when present, the lesson. -/
def resultHeader (m : DocMetadata) : String :=
  match m.lesson_number with
  | some n => "[" ++ m.course_title ++ " - Lesson " ++ toString n ++ "]"
  | none => "[" ++ m.course_title ++ "]"

/-- Modelled from the spec: `CourseSearchTool._format_results` — format
each (document, metadata) pair as a labeled block in provider order,
concatenated with a separating blank line, and simultaneously build one
Citation Source per result. -/
def format_results (store : VectorStore) (results : SearchResults) :
    String × List Source :=
  let pairs := results.documents.zip results.metadata
  (String.intercalate "\n\n" (pairs.map (fun p => resultHeader p.2 ++ "\n" ++ p.1)),
   pairs.map (fun p => sourceFor store p.2))

/-- Modelled from the spec: `CourseSearchTool.execute` — delegate to the
Search Provider; propagate a provider error verbatim; on zero results
return a deterministic no-match message naming the supplied filters; and
otherwise format the results, the new citation list replacing the stored
citation state.  Returns the tool result string and the updated tool. -/
def CourseSearchTool.execute (tool : CourseSearchTool) (query : String)
    (course_name : Option String) (lesson_number : Option Nat) :
    String × CourseSearchTool :=
  let results := tool.store.search query course_name lesson_number
  match results.error with
  | some e => (e, tool)
  | none =>
    if results.documents.isEmpty then
      let filter_info :=
        (match course_name with
         | some c => " in course " ++ "\'" ++ c ++ "\'"
         | none => "") ++
        (match lesson_number with
         | some n => " in lesson " ++ toString n
         | none => "")
      ("No relevant content found" ++ filter_info ++ ".", tool)
    else
      let (formatted, sources) := format_results tool.store results
      (formatted, ⟨tool.store, sources⟩)

/-- Modelled from the spec: the Tool Registry — a mapping from tool name
to an execution entry point taking keyword arguments (the repository's
`search_tools.py` `ToolManager` is not under verification). -/
structure ToolManager where
  tools : List (String × (List (String × String) → String))

/-- Modelled from the spec: `ToolManager.execute_tool` — dispatch by
name; an unregistered name yields the result string
`"Tool \'<name>\' not found"` rather than an exception. -/
def ToolManager.execute_tool (m : ToolManager) (tool_name : String)
    (kwargs : List (String × String)) : String :=
  match m.tools.lookup tool_name with
  | some exec => exec kwargs
  | none => "Tool " ++ "\'" ++ tool_name ++ "\'" ++ " not found"

/-- Whether a content block has a `text` attribute (only text blocks do). -/
def hasTextAttr : ContentBlock → Bool
  | ContentBlock.text _ => true
  | ContentBlock.toolUse _ => false

/-! ### Concrete witness inputs -/

/-- A concrete tool invocation, for witnesses. -/
def wToolUse : ToolUse :=
  ⟨"tool_use_123", "search_course_content", [("query", "unit testing")]⟩

/-- A concrete response requesting one tool invocation. -/
def wToolResp : Response := ⟨"tool_use", [ContentBlock.toolUse wToolUse]⟩

/-- A concrete plain-text response. -/
def wTextResp : Response := ⟨"end_turn", [ContentBlock.text "Final synthesis after max rounds"]⟩

/-- A tool manager whose dispatches always succeed. -/
def wTmOk : ExecuteToolFn := fun _ _ => some "Results"

/-- A tool manager whose dispatches always raise. -/
def wTmFail : ExecuteToolFn := fun _ _ => none

/-- A client that requests tools on calls 0 and 1 and answers in text on
call 2. -/
def wClient : Nat → Response := fun i => if i = 2 then wTextResp else wToolResp

/-- A client whose responses claim `tool_use` but hold no tool block. -/
def wClientNoBlocks : Nat → Response := fun _ => ⟨"tool_use", [ContentBlock.text "x"]⟩

/-- A provider that always reports an error. -/
def wStoreErr : VectorStore :=
  ⟨fun _ _ _ => ⟨[], [], [], some "Database connection failed"⟩, fun _ _ => none⟩

/-- A provider that always returns zero results and no error. -/
def wStoreEmpty : VectorStore :=
  ⟨fun _ _ _ => ⟨[], [], [], none⟩, fun _ _ => none⟩

/-- A provider returning three results with mixed lesson numbers. -/
def wStoreSample : VectorStore :=
  ⟨fun _ _ _ =>
     ⟨["docA", "docB", "docC"],
      [⟨"Python Testing Course", some 1, 0⟩, ⟨"Python Testing Course", some 2, 0⟩,
       ⟨"MCP Introduction", none, 0⟩],
      [], none⟩,
   fun _ _ => some "https://example.com/lesson"⟩

/-! ### Helper lemmas about the dispatch walk -/

theorem toolUses_nil : toolUses [] = [] := rfl

theorem toolUses_cons_text (t : String) (rest : List ContentBlock) :
    toolUses (ContentBlock.text t :: rest) = toolUses rest := rfl

theorem toolUses_cons_use (u : ToolUse) (rest : List ContentBlock) :
    toolUses (ContentBlock.toolUse u :: rest) = u :: toolUses rest := rfl

theorem runToolBlocks_nil (tm : ExecuteToolFn) : runToolBlocks tm [] = ([], some []) := rfl

theorem runToolBlocks_cons_text (tm : ExecuteToolFn) (t : String) (rest : List ContentBlock) :
    runToolBlocks tm (ContentBlock.text t :: rest) = runToolBlocks tm rest := rfl

theorem runToolBlocks_cons_use_none (tm : ExecuteToolFn) (u : ToolUse)
    (rest : List ContentBlock) (h : tm u.name u.input = none) :
    runToolBlocks tm (ContentBlock.toolUse u :: rest) = ([u], none) := by
  rw [runToolBlocks, h]

theorem runToolBlocks_cons_use_some (tm : ExecuteToolFn) (u : ToolUse) (r : String)
    (rest : List ContentBlock) (h : tm u.name u.input = some r) :
    runToolBlocks tm (ContentBlock.toolUse u :: rest) =
      (u :: (runToolBlocks tm rest).1,
       ((runToolBlocks tm rest).2).map (fun rs => ⟨u.id, r⟩ :: rs)) := by
  rw [runToolBlocks, h]

theorem runToolBlocks_of_isSome (tm : ExecuteToolFn) :
    ∀ c : List ContentBlock, (runToolBlocks tm c).2 ≠ none →
      runToolBlocks tm c = (toolUses c, some (toolResultsOf tm c)) := by
  intro c
  induction c with
  | nil => intro _; rfl
  | cons b rest ih =>
    intro hne
    cases b with
    | text t =>
      rw [runToolBlocks_cons_text] at hne ⊢
      rw [ih hne]
      rfl
    | toolUse u =>
      cases hu : tm u.name u.input with
      | none =>
        rw [runToolBlocks_cons_use_none tm u rest hu] at hne
        exact absurd rfl hne
      | some r =>
        rw [runToolBlocks_cons_use_some tm u r rest hu] at hne ⊢
        have hrest : (runToolBlocks tm rest).2 ≠ none := by
          intro h2
          rw [h2] at hne
          exact hne rfl
        have hres : toolResultsOf tm (ContentBlock.toolUse u :: rest) =
            ⟨u.id, r⟩ :: toolResultsOf tm rest := by
          simp only [toolResultsOf, toolUses_cons_use, List.map_cons, hu, Option.getD_some]
        rw [ih hrest, hres, toolUses_cons_use]
        rfl

theorem runToolBlocks_isSome_of_forall (tm : ExecuteToolFn) :
    ∀ c : List ContentBlock,
      (∀ u ∈ toolUses c, (tm u.name u.input).isSome = true) →
      (runToolBlocks tm c).2 ≠ none := by
  intro c
  induction c with
  | nil => intro _ hc; exact Option.noConfusion hc
  | cons b rest ih =>
    intro h
    cases b with
    | text t =>
      rw [runToolBlocks_cons_text]
      exact ih (fun u hu => h u hu)
    | toolUse u =>
      have hu : (tm u.name u.input).isSome = true :=
        h u (by rw [toolUses_cons_use]; exact List.mem_cons_self ..)
      cases hv : tm u.name u.input with
      | none => rw [hv] at hu; exact Bool.noConfusion hu
      | some r =>
        rw [runToolBlocks_cons_use_some tm u r rest hv]
        have hrest := ih (fun v hvm =>
          h v (by rw [toolUses_cons_use]; exact List.mem_cons_of_mem _ hvm))
        intro hcon
        cases hr : (runToolBlocks tm rest).2 with
        | none => exact hrest hr
        | some rs => rw [hr] at hcon; exact Option.noConfusion hcon

theorem runToolBlocks_of_forall_isSome (tm : ExecuteToolFn) (c : List ContentBlock)
    (h : ∀ u ∈ toolUses c, (tm u.name u.input).isSome = true) :
    runToolBlocks tm c = (toolUses c, some (toolResultsOf tm c)) :=
  runToolBlocks_of_isSome tm c (runToolBlocks_isSome_of_forall tm c h)

theorem runToolBlocks_no_uses (tm : ExecuteToolFn) :
    ∀ c : List ContentBlock, toolUses c = [] → runToolBlocks tm c = ([], some []) := by
  intro c
  induction c with
  | nil => intro _; rfl
  | cons b rest ih =>
    intro h
    cases b with
    | text t =>
      rw [runToolBlocks_cons_text]
      exact ih (by rw [← toolUses_cons_text t rest]; exact h)
    | toolUse u => rw [toolUses_cons_use] at h; exact List.noConfusion h

theorem runToolBlocks_of_failure (tm : ExecuteToolFn) :
    ∀ c : List ContentBlock,
      (∃ u ∈ toolUses c, tm u.name u.input = none) →
      (runToolBlocks tm c).2 = none := by
  intro c
  induction c with
  | nil => rintro ⟨u, hu, -⟩; exact absurd hu (List.not_mem_nil u)
  | cons b rest ih =>
    rintro ⟨u, hu, hfail⟩
    cases b with
    | text t =>
      rw [toolUses_cons_text] at hu
      rw [runToolBlocks_cons_text]
      exact ih ⟨u, hu, hfail⟩
    | toolUse v =>
      rw [toolUses_cons_use] at hu
      cases hv : tm v.name v.input with
      | none => rw [runToolBlocks_cons_use_none tm v rest hv]
      | some r =>
        rw [runToolBlocks_cons_use_some tm v r rest hv]
        rcases List.mem_cons.mp hu with rfl | hu2
        · rw [hv] at hfail; exact Option.noConfusion hfail
        · simp only [ih ⟨u, hu2, hfail⟩]
          rfl

theorem dispatchOk_elim (tm : ExecuteToolFn) (c : List ContentBlock)
    (h : dispatchOk tm c = true) :
    runToolBlocks tm c = (toolUses c, some (toolResultsOf tm c)) ∧
      toolResultsOf tm c ≠ [] := by
  rw [dispatchOk] at h
  have hne : (runToolBlocks tm c).2 ≠ none := by
    intro h2; rw [h2] at h; exact Bool.noConfusion h
  have heq := runToolBlocks_of_isSome tm c hne
  refine ⟨heq, ?_⟩
  rw [heq] at h
  intro hnil
  rw [hnil] at h
  exact Bool.noConfusion h

theorem dispatchOk_of_forall (tm : ExecuteToolFn) (c : List ContentBlock)
    (hne : toolUses c ≠ [])
    (h : ∀ u ∈ toolUses c, (tm u.name u.input).isSome = true) :
    dispatchOk tm c = true := by
  rw [dispatchOk, runToolBlocks_of_forall_isSome tm c h]
  cases hr : toolResultsOf tm c with
  | nil =>
    rw [toolResultsOf] at hr
    exact absurd (List.map_eq_nil_iff.mp hr) hne
  | cons a l => rfl

/-! ### Step lemmas for the orchestration loop -/

theorem exec_tools_success (tm : ExecuteToolFn) (response : Response) (messages : List Message)
    (h : dispatchOk tm response.content = true) :
    execute_tools_and_update_messages tm response messages =
      (true, nextMessages tm response messages, toolUses response.content) := by
  obtain ⟨heq, hne⟩ := dispatchOk_elim tm response.content h
  cases hr : toolResultsOf tm response.content with
  | nil => exact absurd hr hne
  | cons a l =>
    rw [hr] at heq
    simp only [execute_tools_and_update_messages, heq, nextMessages, hr, List.append_assoc]
    rfl

theorem exec_tools_failure (tm : ExecuteToolFn) (response : Response) (messages : List Message)
    (h : dispatchOk tm response.content = false) :
    (execute_tools_and_update_messages tm response messages).1 = false := by
  rw [dispatchOk] at h
  rcases hrb : runToolBlocks tm response.content with ⟨ds, res⟩
  rw [hrb] at h
  simp only [execute_tools_and_update_messages, hrb]
  cases res with
  | none => rfl
  | some rs =>
    cases rs with
    | nil => rfl
    | cons a l => exact Bool.noConfusion h

theorem genLoop_zero (client : Nat → Response) (tools : List String)
    (tmo : Option ExecuteToolFn) (callIdx : Nat) (messages : List Message) :
    genLoop client tools tmo 0 callIdx messages =
      ⟨extract_text_response (client callIdx).content, [⟨messages, none, none⟩], []⟩ := rfl

theorem genLoop_text_exit (client : Nat → Response) (tools : List String)
    (tmo : Option ExecuteToolFn) (fuel callIdx : Nat) (messages : List Message)
    (h : (client callIdx).stop_reason ≠ "tool_use") :
    genLoop client tools tmo (fuel + 1) callIdx messages =
      ⟨extract_text_response (client callIdx).content, [mkToolCall tools messages], []⟩ := by
  rw [genLoop.eq_def]
  simp only [if_pos h]

theorem genLoop_tool_step (client : Nat → Response) (tools : List String)
    (tm : ExecuteToolFn) (fuel callIdx : Nat) (messages : List Message)
    (h1 : (client callIdx).stop_reason = "tool_use")
    (h2 : dispatchOk tm (client callIdx).content = true) :
    genLoop client tools (some tm) (fuel + 1) callIdx messages =
      ⟨(genLoop client tools (some tm) fuel (callIdx + 1)
          (nextMessages tm (client callIdx) messages)).result,
       mkToolCall tools messages ::
         (genLoop client tools (some tm) fuel (callIdx + 1)
           (nextMessages tm (client callIdx) messages)).apiCalls,
       toolUses (client callIdx).content ::
         (genLoop client tools (some tm) fuel (callIdx + 1)
           (nextMessages tm (client callIdx) messages)).toolBatches⟩ := by
  have hexec := exec_tools_success tm (client callIdx) messages h2
  rw [genLoop, if_neg (by rw [h1]; exact fun hc => hc rfl)]
  simp only [hexec]
  rw [if_pos trivial]

theorem genLoop_fail_step (client : Nat → Response) (tools : List String)
    (tm : ExecuteToolFn) (fuel callIdx : Nat) (messages : List Message)
    (h1 : (client callIdx).stop_reason = "tool_use")
    (h2 : dispatchOk tm (client callIdx).content = false) :
    (genLoop client tools (some tm) (fuel + 1) callIdx messages).result =
      "Error executing tools. Please try again." ∧
    (genLoop client tools (some tm) (fuel + 1) callIdx messages).apiCalls.length = 1 := by
  have hexec := exec_tools_failure tm (client callIdx) messages h2
  rw [genLoop, if_neg (by rw [h1]; exact fun hc => hc rfl)]
  rcases he : execute_tools_and_update_messages tm (client callIdx) messages with ⟨succ, m2, d⟩
  rw [he] at hexec
  simp only at hexec
  subst hexec
  exact ⟨rfl, rfl⟩

/-! ### Induction lemmas over the round budget -/

theorem genLoop_all_rounds (client : Nat → Response) (tools : List String) (tm : ExecuteToolFn) :
    ∀ (fuel callIdx : Nat) (messages : List Message),
      (∀ i, i < fuel → (client (callIdx + i)).stop_reason = "tool_use" ∧
        dispatchOk tm (client (callIdx + i)).content = true) →
      (genLoop client tools (some tm) fuel callIdx messages).apiCalls.length = fuel + 1 ∧
      (genLoop client tools (some tm) fuel callIdx messages).toolBatches.length = fuel ∧
      (∃ m, (genLoop client tools (some tm) fuel callIdx messages).apiCalls.getLast? =
        some ⟨m, none, none⟩) ∧
      (genLoop client tools (some tm) fuel callIdx messages).result =
        extract_text_response (client (callIdx + fuel)).content := by
  intro fuel
  induction fuel with
  | zero =>
    intro callIdx messages _
    rw [genLoop_zero]
    exact ⟨rfl, rfl, ⟨messages, rfl⟩, by rw [Nat.add_zero]⟩
  | succ f ih =>
    intro callIdx messages h
    obtain ⟨h1, h2⟩ := h 0 (Nat.succ_pos f)
    rw [Nat.add_zero] at h1 h2
    have h' : ∀ i, i < f → (client (callIdx + 1 + i)).stop_reason = "tool_use" ∧
        dispatchOk tm (client (callIdx + 1 + i)).content = true := by
      intro i hi
      have := h (i + 1) (Nat.succ_lt_succ hi)
      rwa [show callIdx + (i + 1) = callIdx + 1 + i by omega] at this
    obtain ⟨ihl, ihb, ⟨m, hm⟩, ihr⟩ :=
      ih (callIdx + 1) (nextMessages tm (client callIdx) messages) h'
    rw [genLoop_tool_step client tools tm f callIdx messages h1 h2]
    refine ⟨?_, ?_, ?_, ?_⟩
    · show (mkToolCall tools messages ::
        (genLoop client tools (some tm) f (callIdx + 1)
          (nextMessages tm (client callIdx) messages)).apiCalls).length = f + 1 + 1
      rw [List.length_cons, ihl]
    · show (toolUses (client callIdx).content ::
        (genLoop client tools (some tm) f (callIdx + 1)
          (nextMessages tm (client callIdx) messages)).toolBatches).length = f + 1
      rw [List.length_cons, ihb]
    · refine ⟨m, ?_⟩
      show (mkToolCall tools messages ::
        (genLoop client tools (some tm) f (callIdx + 1)
          (nextMessages tm (client callIdx) messages)).apiCalls).getLast? =
          some ⟨m, none, none⟩
      cases hc : (genLoop client tools (some tm) f (callIdx + 1)
          (nextMessages tm (client callIdx) messages)).apiCalls with
      | nil => rw [hc] at ihl; exact absurd ihl (by simp)
      | cons b l =>
        rw [hc] at hm
        rw [List.getLast?_cons_cons, hm]
    · show (genLoop client tools (some tm) f (callIdx + 1)
          (nextMessages tm (client callIdx) messages)).result =
        extract_text_response (client (callIdx + (f + 1))).content
      rw [ihr, show callIdx + 1 + f = callIdx + (f + 1) by omega]

theorem genLoop_early_exit (client : Nat → Response) (tools : List String) (tm : ExecuteToolFn) :
    ∀ (N fuel callIdx : Nat) (messages : List Message),
      N < fuel →
      (∀ i, i < N → (client (callIdx + i)).stop_reason = "tool_use" ∧
        dispatchOk tm (client (callIdx + i)).content = true) →
      (client (callIdx + N)).stop_reason ≠ "tool_use" →
      (genLoop client tools (some tm) fuel callIdx messages).apiCalls.length = N + 1 ∧
      (genLoop client tools (some tm) fuel callIdx messages).toolBatches.length = N ∧
      (genLoop client tools (some tm) fuel callIdx messages).result =
        extract_text_response (client (callIdx + N)).content := by
  intro N
  induction N with
  | zero =>
    intro fuel callIdx messages hN h hstop
    rw [Nat.add_zero] at hstop
    cases fuel with
    | zero => exact absurd hN (Nat.lt_irrefl 0)
    | succ f =>
      rw [genLoop_text_exit client tools (some tm) f callIdx messages hstop]
      exact ⟨rfl, rfl, by rw [Nat.add_zero]⟩
  | succ n ih =>
    intro fuel callIdx messages hN h hstop
    cases fuel with
    | zero => exact absurd hN (Nat.not_lt_zero (n + 1))
    | succ f =>
      obtain ⟨h1, h2⟩ := h 0 (Nat.succ_pos n)
      rw [Nat.add_zero] at h1 h2
      have h' : ∀ i, i < n → (client (callIdx + 1 + i)).stop_reason = "tool_use" ∧
          dispatchOk tm (client (callIdx + 1 + i)).content = true := by
        intro i hi
        have := h (i + 1) (Nat.succ_lt_succ hi)
        rwa [show callIdx + (i + 1) = callIdx + 1 + i by omega] at this
      have hstop' : (client (callIdx + 1 + n)).stop_reason ≠ "tool_use" := by
        rwa [show callIdx + 1 + n = callIdx + (n + 1) by omega]
      obtain ⟨ihl, ihb, ihr⟩ :=
        ih f (callIdx + 1) (nextMessages tm (client callIdx) messages)
          (Nat.lt_of_succ_lt_succ hN) h' hstop'
      rw [genLoop_tool_step client tools tm f callIdx messages h1 h2]
      refine ⟨?_, ?_, ?_⟩
      · show (mkToolCall tools messages ::
          (genLoop client tools (some tm) f (callIdx + 1)
            (nextMessages tm (client callIdx) messages)).apiCalls).length = n + 1 + 1
        rw [List.length_cons, ihl]
      · show (toolUses (client callIdx).content ::
          (genLoop client tools (some tm) f (callIdx + 1)
            (nextMessages tm (client callIdx) messages)).toolBatches).length = n + 1
        rw [List.length_cons, ihb]
      · show (genLoop client tools (some tm) f (callIdx + 1)
            (nextMessages tm (client callIdx) messages)).result =
          extract_text_response (client (callIdx + (n + 1))).content
        rw [ihr, show callIdx + 1 + n = callIdx + (n + 1) by omega]

theorem genLoop_fail_at (client : Nat → Response) (tools : List String) (tm : ExecuteToolFn) :
    ∀ (j fuel callIdx : Nat) (messages : List Message),
      j < fuel →
      (∀ i, i < j → (client (callIdx + i)).stop_reason = "tool_use" ∧
        dispatchOk tm (client (callIdx + i)).content = true) →
      (client (callIdx + j)).stop_reason = "tool_use" →
      dispatchOk tm (client (callIdx + j)).content = false →
      (genLoop client tools (some tm) fuel callIdx messages).result =
        "Error executing tools. Please try again." ∧
      (genLoop client tools (some tm) fuel callIdx messages).apiCalls.length = j + 1 := by
  intro j
  induction j with
  | zero =>
    intro fuel callIdx messages hj h hstop hfail
    rw [Nat.add_zero] at hstop hfail
    cases fuel with
    | zero => exact absurd hj (Nat.lt_irrefl 0)
    | succ f =>
      exact genLoop_fail_step client tools tm f callIdx messages hstop hfail
  | succ n ih =>
    intro fuel callIdx messages hj h hstop hfail
    cases fuel with
    | zero => exact absurd hj (Nat.not_lt_zero (n + 1))
    | succ f =>
      obtain ⟨h1, h2⟩ := h 0 (Nat.succ_pos n)
      rw [Nat.add_zero] at h1 h2
      have h' : ∀ i, i < n → (client (callIdx + 1 + i)).stop_reason = "tool_use" ∧
          dispatchOk tm (client (callIdx + 1 + i)).content = true := by
        intro i hi
        have := h (i + 1) (Nat.succ_lt_succ hi)
        rwa [show callIdx + (i + 1) = callIdx + 1 + i by omega] at this
      have hstop' : (client (callIdx + 1 + n)).stop_reason = "tool_use" := by
        rwa [show callIdx + 1 + n = callIdx + (n + 1) by omega]
      have hfail' : dispatchOk tm (client (callIdx + 1 + n)).content = false := by
        rwa [show callIdx + 1 + n = callIdx + (n + 1) by omega]
      obtain ⟨ihr, ihl⟩ :=
        ih f (callIdx + 1) (nextMessages tm (client callIdx) messages)
          (Nat.lt_of_succ_lt_succ hj) h' hstop' hfail'
      rw [genLoop_tool_step client tools tm f callIdx messages h1 h2]
      refine ⟨?_, ?_⟩
      · show (genLoop client tools (some tm) f (callIdx + 1)
            (nextMessages tm (client callIdx) messages)).result =
          "Error executing tools. Please try again."
        exact ihr
      · show (mkToolCall tools messages ::
          (genLoop client tools (some tm) f (callIdx + 1)
            (nextMessages tm (client callIdx) messages)).apiCalls).length = n + 1 + 1
        rw [List.length_cons, ihl]

theorem extract_text_none (content : List ContentBlock)
    (h : ∀ b ∈ content, hasTextAttr b = false) :
    extract_text_response content = "" := by
  induction content with
  | nil => rfl
  | cons b l ih =>
    cases b with
    | text s => exact Bool.noConfusion (h _ (List.mem_cons_self ..))
    | toolUse u =>
      rw [extract_text_response]
      exact ih (fun b hb => h b (List.mem_cons_of_mem _ hb))

theorem extract_text_skip (pre : List ContentBlock) (t : String) (rest : List ContentBlock)
    (h : ∀ b ∈ pre, hasTextAttr b = false) :
    extract_text_response (pre ++ ContentBlock.text t :: rest) = t := by
  induction pre with
  | nil => rfl
  | cons b l ih =>
    cases b with
    | text s => exact Bool.noConfusion (h _ (List.mem_cons_self ..))
    | toolUse u =>
      rw [List.cons_append, extract_text_response]
      exact ih (fun b hb => h b (List.mem_cons_of_mem _ hb))

/-! ### Claim theorems for the orchestration loop -/

/-- C1: when tools and a tool manager are supplied and every LLM response
during the loop has stop_reason `"tool_use"` with all dispatches
succeeding, exactly `max_rounds + 1` LLM calls are made, the final call
carries no `tools` or `tool_choice` parameter, and the run returns the
text extracted from that final response. -/
theorem generate_response_max_rounds_exhausted (client : Nat → Response) (query : String)
    (tools : List String) (tm : ExecuteToolFn) (max_rounds : Nat)
    (htools : tools ≠ [])
    (h : ∀ i, i < max_rounds → (client i).stop_reason = "tool_use" ∧
      dispatchOk tm (client i).content = true) :
    (generate_response client query tools (some tm) max_rounds).apiCalls.length =
      max_rounds + 1 ∧
    (∃ m, (generate_response client query tools (some tm) max_rounds).apiCalls.getLast? =
      some ⟨m, none, none⟩) ∧
    (generate_response client query tools (some tm) max_rounds).result =
      extract_text_response (client max_rounds).content := by
  obtain ⟨hl, hb, hlast, hres⟩ := genLoop_all_rounds client tools tm max_rounds 0
    [⟨"user", MessageContent.text query⟩]
    (by intro i hi; rw [Nat.zero_add]; exact h i hi)
  rw [Nat.zero_add] at hres
  exact ⟨hl, hlast, hres⟩

/-- C2: when the first `N` responses request tools (all dispatches
succeeding, `N < max_rounds`) and the `(N+1)`-th does not, exactly
`N + 1` LLM calls and exactly `N` tool-dispatch batches occur, and the
run returns the text of the `(N+1)`-th response (in particular one
single LLM call when the first response requests no tool). -/
theorem generate_response_early_termination (client : Nat → Response) (query : String)
    (tools : List String) (tm : ExecuteToolFn) (N max_rounds : Nat)
    (hN : N < max_rounds)
    (h : ∀ i, i < N → (client i).stop_reason = "tool_use" ∧
      dispatchOk tm (client i).content = true)
    (hstop : (client N).stop_reason ≠ "tool_use") :
    (generate_response client query tools (some tm) max_rounds).apiCalls.length = N + 1 ∧
    (generate_response client query tools (some tm) max_rounds).toolBatches.length = N ∧
    (generate_response client query tools (some tm) max_rounds).result =
      extract_text_response (client N).content := by
  obtain ⟨hl, hb, hres⟩ := genLoop_early_exit client tools tm N max_rounds 0
    [⟨"user", MessageContent.text query⟩] hN
    (by intro i hi; rw [Nat.zero_add]; exact h i hi)
    (by rw [Nat.zero_add]; exact hstop)
  rw [Nat.zero_add] at hres
  exact ⟨hl, hb, hres⟩

/-- C3: if the tool manager raises an exception for any invocation of a
round (reached after `j` successful tool rounds), the run returns the
fixed string `"Error executing tools. Please try again."` and issues no
LLM call after that round's triggering call; the exception does not
propagate (the run still returns a string). -/
theorem generate_response_tool_exception_aborts (client : Nat → Response) (query : String)
    (tools : List String) (tm : ExecuteToolFn) (j max_rounds : Nat)
    (hj : j < max_rounds)
    (h : ∀ i, i < j → (client i).stop_reason = "tool_use" ∧
      dispatchOk tm (client i).content = true)
    (hstop : (client j).stop_reason = "tool_use")
    (hexc : ∃ u ∈ toolUses (client j).content, tm u.name u.input = none) :
    (generate_response client query tools (some tm) max_rounds).result =
      "Error executing tools. Please try again." ∧
    (generate_response client query tools (some tm) max_rounds).apiCalls.length = j + 1 := by
  have hfail : dispatchOk tm (client j).content = false := by
    rw [dispatchOk, runToolBlocks_of_failure tm _ hexc]
  exact genLoop_fail_at client tools tm j max_rounds 0
    [⟨"user", MessageContent.text query⟩] hj
    (by intro i hi; rw [Nat.zero_add]; exact h i hi)
    (by rw [Nat.zero_add]; exact hstop)
    (by rw [Nat.zero_add]; exact hfail)

/-- C4: in a round whose response holds one or more tool-use blocks with
every dispatch succeeding, every invocation is dispatched in block
order, exactly two turns are appended (the assistant tool-use turn, then
a single user turn with one tool result per invocation carrying that
invocation's id, in issue order), and the dispatch happens before the
next LLM call is issued. -/
theorem tool_round_dispatch_order_and_bundling (tm : ExecuteToolFn) (response : Response)
    (messages : List Message)
    (hstop : response.stop_reason = "tool_use")
    (hne : toolUses response.content ≠ [])
    (hsucc : ∀ u ∈ toolUses response.content, (tm u.name u.input).isSome = true) :
    execute_tools_and_update_messages tm response messages =
      (true, messages ++ [⟨"assistant", MessageContent.blocks response.content⟩,
                          ⟨"user", MessageContent.toolResults
                            (toolResultsOf tm response.content)⟩],
       toolUses response.content) ∧
    (toolResultsOf tm response.content).map ToolResult.tool_use_id =
      (toolUses response.content).map ToolUse.id ∧
    (toolResultsOf tm response.content).length = (toolUses response.content).length ∧
    (∀ (client : Nat → Response) (tools : List String) (fuel k : Nat), client k = response →
      genLoop client tools (some tm) (fuel + 1) k messages =
        ⟨(genLoop client tools (some tm) fuel (k + 1)
            (nextMessages tm response messages)).result,
         mkToolCall tools messages ::
           (genLoop client tools (some tm) fuel (k + 1)
             (nextMessages tm response messages)).apiCalls,
         toolUses response.content ::
           (genLoop client tools (some tm) fuel (k + 1)
             (nextMessages tm response messages)).toolBatches⟩) := by
  have hok : dispatchOk tm response.content = true :=
    dispatchOk_of_forall tm response.content hne hsucc
  refine ⟨exec_tools_success tm response messages hok, ?_, ?_, ?_⟩
  · simp only [toolResultsOf, List.map_map]
    rfl
  · simp only [toolResultsOf, List.length_map]
  · intro client tools fuel k hck
    have := genLoop_tool_step client tools tm fuel k messages
      (by rw [hck]; exact hstop) (by rw [hck]; exact hok)
    rwa [hck] at this

/-- C5: text extraction never raises: a response whose content has no
block with a `text` attribute yields the empty string, and when a text
block is present the text of the first such block is returned. -/
theorem extract_text_response_total_spec (content : List ContentBlock) :
    ((∀ b ∈ content, hasTextAttr b = false) → extract_text_response content = "") ∧
    (∀ (pre : List ContentBlock) (t : String) (rest : List ContentBlock),
      content = pre ++ ContentBlock.text t :: rest →
      (∀ b ∈ pre, hasTextAttr b = false) →
      extract_text_response content = t) :=
  ⟨extract_text_none content,
   fun pre t rest hc hp => by rw [hc]; exact extract_text_skip pre t rest hp⟩

/-- C10: when a response inside the loop has stop_reason `"tool_use"`
and a tool manager is supplied but the content holds no tool-use block,
the run returns the fixed string
`"Error executing tools. Please try again."` (the zero-results branch is
treated as failure) and makes no further LLM call. -/
theorem tool_use_response_without_blocks_errors (client : Nat → Response) (query : String)
    (tools : List String) (tm : ExecuteToolFn) (j max_rounds : Nat)
    (hj : j < max_rounds)
    (h : ∀ i, i < j → (client i).stop_reason = "tool_use" ∧
      dispatchOk tm (client i).content = true)
    (hstop : (client j).stop_reason = "tool_use")
    (hnoblocks : toolUses (client j).content = []) :
    (generate_response client query tools (some tm) max_rounds).result =
      "Error executing tools. Please try again." ∧
    (generate_response client query tools (some tm) max_rounds).apiCalls.length = j + 1 := by
  have hfail : dispatchOk tm (client j).content = false := by
    rw [dispatchOk, runToolBlocks_no_uses tm _ hnoblocks]
  exact genLoop_fail_at client tools tm j max_rounds 0
    [⟨"user", MessageContent.text query⟩] hj
    (by intro i hi; rw [Nat.zero_add]; exact h i hi)
    (by rw [Nat.zero_add]; exact hstop)
    (by rw [Nat.zero_add]; exact hfail)

/-! ### Claim theorems for the search tools (spec-modelled) -/

/-- C6: dispatching an unregistered tool name returns the result string
`"Tool \'<name>\' not found"` — which contains `"not found"` — and does
not raise. -/
theorem execute_tool_unknown_name_not_found (m : ToolManager) (tool_name : String)
    (kwargs : List (String × String))
    (h : m.tools.lookup tool_name = none) :
    m.execute_tool tool_name kwargs =
      "Tool " ++ "\'" ++ tool_name ++ "\'" ++ " not found" ∧
    ∃ a b, m.execute_tool tool_name kwargs = a ++ "not found" ++ b := by
  have he : m.execute_tool tool_name kwargs =
      "Tool " ++ "\'" ++ tool_name ++ "\'" ++ " not found" := by
    rw [ToolManager.execute_tool, h]
  refine ⟨he, "Tool " ++ "\'" ++ tool_name ++ "\' ", "", ?_⟩
  rw [he, String.append_empty]
  simp only [String.append_assoc]
  rfl

/-- C7: a Search Provider error is returned verbatim as the tool result,
with no additional formatting or wrapping. -/
theorem course_search_error_propagated_verbatim (tool : CourseSearchTool) (query : String)
    (course_name : Option String) (lesson_number : Option Nat) (e : String)
    (herr : (tool.store.search query course_name lesson_number).error = some e) :
    (tool.execute query course_name lesson_number).1 = e := by
  simp only [CourseSearchTool.execute, herr]

/-- C8: on zero results without error the tool returns a deterministic
no-match message: exactly `"No relevant content found."` with no
filters, and a message containing the supplied course name and the text
`"lesson N"` for the supplied lesson number when filters were given. -/
theorem course_search_empty_results_message (tool : CourseSearchTool) (query : String)
    (course_name : Option String) (lesson_number : Option Nat)
    (herr : (tool.store.search query course_name lesson_number).error = none)
    (hempty : (tool.store.search query course_name lesson_number).documents = []) :
    (course_name = none → lesson_number = none →
      (tool.execute query course_name lesson_number).1 = "No relevant content found.") ∧
    (∀ c, course_name = some c →
      ∃ a b, (tool.execute query course_name lesson_number).1 = a ++ c ++ b) ∧
    (∀ n, lesson_number = some n →
      ∃ a b, (tool.execute query course_name lesson_number).1 =
        a ++ ("lesson " ++ toString n) ++ b) := by
  refine ⟨?_, ?_, ?_⟩
  · intro hcn hln
    subst hcn; subst hln
    simp only [CourseSearchTool.execute, herr, hempty]
    rfl
  · intro c hc
    subst hc
    cases lesson_number with
    | none =>
      refine ⟨"No relevant content found" ++ (" in course " ++ "\'"), "\'" ++ ".", ?_⟩
      simp only [CourseSearchTool.execute, herr, hempty, List.isEmpty_nil, if_true]
      simp only [String.append_assoc, String.append_empty]
    | some n =>
      refine ⟨"No relevant content found" ++ (" in course " ++ "\'"),
        "\'" ++ (" in lesson " ++ (toString n ++ ".")), ?_⟩
      simp only [CourseSearchTool.execute, herr, hempty, List.isEmpty_nil, if_true]
      simp only [String.append_assoc]
  · intro n hn
    subst hn
    have hsplit : (" in lesson " : String) = " in " ++ "lesson " := rfl
    cases course_name with
    | none =>
      refine ⟨"No relevant content found" ++ " in ", ".", ?_⟩
      simp only [CourseSearchTool.execute, herr, hempty, List.isEmpty_nil, if_true]
      rw [hsplit]
      simp only [String.append_assoc]
      rfl
    | some c =>
      refine ⟨"No relevant content found" ++
        (" in course " ++ ("\'" ++ (c ++ ("\'" ++ " in ")))), ".", ?_⟩
      simp only [CourseSearchTool.execute, herr, hempty, List.isEmpty_nil, if_true]
      rw [hsplit]
      simp only [String.append_assoc]

theorem zip_map_snd {α β γ : Type} (f : β → γ) :
    ∀ (l1 : List α) (l2 : List β), l1.length = l2.length →
      (l1.zip l2).map (fun p => f p.2) = l2.map f := by
  intro l1
  induction l1 with
  | nil =>
    intro l2 h
    cases l2 with
    | nil => rfl
    | cons b t => exact absurd h (by simp)
  | cons a t ih =>
    intro l2 h
    cases l2 with
    | nil => exact absurd h (by simp)
    | cons b t2 =>
      simp only [List.zip_cons_cons, List.map_cons]
      rw [ih t2 (by simpa using h)]

/-- C9: a successful search with `K` results leaves exactly `K` stored
citation entries, entry `i` displaying
`"<course title> - Lesson <n>"` when result `i`'s metadata has a lesson
number and just the course title otherwise, and this citation list fully
replaces the state left by any prior call (it never accumulates). -/
theorem course_search_sources_replace (tool : CourseSearchTool) (query : String)
    (course_name : Option String) (lesson_number : Option Nat) (K : Nat)
    (herr : (tool.store.search query course_name lesson_number).error = none)
    (hdl : (tool.store.search query course_name lesson_number).documents.length = K)
    (hml : (tool.store.search query course_name lesson_number).metadata.length = K)
    (hK : K ≠ 0) :
    ((tool.execute query course_name lesson_number).2.last_sources).length = K ∧
    (∀ (i : Nat) (mi : DocMetadata),
      (tool.store.search query course_name lesson_number).metadata[i]? = some mi →
      ∃ s, ((tool.execute query course_name lesson_number).2.last_sources)[i]? = some s ∧
        s.text = match mi.lesson_number with
          | some n => mi.course_title ++ " - Lesson " ++ toString n
          | none => mi.course_title) ∧
    (∀ tool2 : CourseSearchTool, tool2.store = tool.store →
      (tool2.execute query course_name lesson_number).2.last_sources =
        (tool.execute query course_name lesson_number).2.last_sources) := by
  have hne : (tool.store.search query course_name lesson_number).documents ≠ [] := by
    intro hnil
    rw [hnil] at hdl
    exact hK (by simpa using hdl.symm)
  have hsources : ∀ t2 : CourseSearchTool, t2.store = tool.store →
      (t2.execute query course_name lesson_number).2.last_sources =
        (tool.store.search query course_name lesson_number).metadata.map
          (sourceFor tool.store) := by
    intro t2 hstore
    simp only [CourseSearchTool.execute, hstore, herr, format_results]
    rw [if_neg (fun hemp => hne (List.isEmpty_iff.mp hemp))]
    exact zip_map_snd (sourceFor tool.store) _ _ (by rw [hdl, hml])
  refine ⟨?_, ?_, ?_⟩
  · rw [hsources tool rfl, List.length_map, hml]
  · intro i mi hmi
    rw [hsources tool rfl]
    refine ⟨sourceFor tool.store mi, ?_, ?_⟩
    · rw [List.getElem?_map, hmi]
      rfl
    · cases hl : mi.lesson_number with
      | none => simp only [sourceFor, hl]
      | some n => simp only [sourceFor, hl]
  · intro tool2 h2
    rw [hsources tool2 h2, hsources tool rfl]

/-! ### Witnesses -/

/-- Witness for C1 at a concrete client that requests tools on both
rounds of a two-round budget. -/
theorem generate_response_max_rounds_exhausted_witness :
    (generate_response wClient "Test" ["search_course_content"] (some wTmOk) 2).apiCalls.length
      = 3 ∧
    (∃ m, (generate_response wClient "Test" ["search_course_content"]
      (some wTmOk) 2).apiCalls.getLast? = some ⟨m, none, none⟩) ∧
    (generate_response wClient "Test" ["search_course_content"] (some wTmOk) 2).result =
      extract_text_response (wClient 2).content :=
  generate_response_max_rounds_exhausted wClient "Test" ["search_course_content"] wTmOk 2
    (by decide) (by decide)

/-- Witness for C2 at a concrete client with two tool rounds followed by
a text answer inside a three-round budget. -/
theorem generate_response_early_termination_witness :
    (generate_response wClient "Test" ["search_course_content"] (some wTmOk) 3).apiCalls.length
      = 3 ∧
    (generate_response wClient "Test" ["search_course_content"]
      (some wTmOk) 3).toolBatches.length = 2 ∧
    (generate_response wClient "Test" ["search_course_content"] (some wTmOk) 3).result =
      extract_text_response (wClient 2).content :=
  generate_response_early_termination wClient "Test" ["search_course_content"] wTmOk 2 3
    (by decide) (by decide) (by decide)

/-- Witness for C3 at a tool manager that raises on the first round. -/
theorem generate_response_tool_exception_aborts_witness :
    (generate_response wClient "Test" ["search_course_content"] (some wTmFail) 2).result =
      "Error executing tools. Please try again." ∧
    (generate_response wClient "Test" ["search_course_content"]
      (some wTmFail) 2).apiCalls.length = 1 :=
  generate_response_tool_exception_aborts wClient "Test" ["search_course_content"] wTmFail 0 2
    (by decide) (by decide) (by decide) (by decide)

/-- Witness for C4 at a concrete one-invocation response. -/
theorem tool_round_dispatch_order_and_bundling_witness :
    execute_tools_and_update_messages wTmOk wToolResp [] =
      (true, [⟨"assistant", MessageContent.blocks wToolResp.content⟩,
              ⟨"user", MessageContent.toolResults (toolResultsOf wTmOk wToolResp.content)⟩],
       toolUses wToolResp.content) ∧
    (toolResultsOf wTmOk wToolResp.content).map ToolResult.tool_use_id =
      (toolUses wToolResp.content).map ToolUse.id ∧
    (toolResultsOf wTmOk wToolResp.content).length = (toolUses wToolResp.content).length ∧
    genLoop wClient ["search_course_content"] (some wTmOk) 1 0 [] =
      ⟨(genLoop wClient ["search_course_content"] (some wTmOk) 0 1
          (nextMessages wTmOk wToolResp [])).result,
       mkToolCall ["search_course_content"] [] ::
         (genLoop wClient ["search_course_content"] (some wTmOk) 0 1
           (nextMessages wTmOk wToolResp [])).apiCalls,
       toolUses wToolResp.content ::
         (genLoop wClient ["search_course_content"] (some wTmOk) 0 1
           (nextMessages wTmOk wToolResp [])).toolBatches⟩ := by
  have h := tool_round_dispatch_order_and_bundling wTmOk wToolResp []
    (by decide) (by decide) (by decide)
  exact ⟨h.1, h.2.1, h.2.2.1, h.2.2.2 wClient ["search_course_content"] 0 0 (by decide)⟩

/-- Witness for C5 at contents without and with a text block. -/
theorem extract_text_response_total_spec_witness :
    extract_text_response [ContentBlock.toolUse wToolUse] = "" ∧
    extract_text_response [ContentBlock.toolUse wToolUse, ContentBlock.text "hello"] =
      "hello" :=
  ⟨(extract_text_response_total_spec [ContentBlock.toolUse wToolUse]).1 (by decide),
   (extract_text_response_total_spec
       [ContentBlock.toolUse wToolUse, ContentBlock.text "hello"]).2
     [ContentBlock.toolUse wToolUse] "hello" [] rfl (by decide)⟩

/-- Witness for C6 at an empty registry. -/
theorem execute_tool_unknown_name_not_found_witness :
    ToolManager.execute_tool ⟨[]⟩ "nonexistent_tool" [("query", "test")] =
      "Tool " ++ "\'" ++ "nonexistent_tool" ++ "\'" ++ " not found" ∧
    ∃ a b, ToolManager.execute_tool ⟨[]⟩ "nonexistent_tool" [("query", "test")] =
      a ++ "not found" ++ b :=
  execute_tool_unknown_name_not_found ⟨[]⟩ "nonexistent_tool" [("query", "test")] rfl

/-- Witness for C7 at a provider reporting a concrete error. -/
theorem course_search_error_propagated_verbatim_witness :
    (CourseSearchTool.execute ⟨wStoreErr, []⟩ "test query" none none).1 =
      "Database connection failed" :=
  course_search_error_propagated_verbatim ⟨wStoreErr, []⟩ "test query" none none
    "Database connection failed" rfl

/-- Witness for C8 at an empty result set, without and with filters. -/
theorem course_search_empty_results_message_witness :
    (CourseSearchTool.execute ⟨wStoreEmpty, []⟩ "q" none none).1 =
      "No relevant content found." ∧
    (∃ a b, (CourseSearchTool.execute ⟨wStoreEmpty, []⟩ "q"
        (some "Nonexistent Course") (some 5)).1 = a ++ "Nonexistent Course" ++ b) ∧
    (∃ a b, (CourseSearchTool.execute ⟨wStoreEmpty, []⟩ "q"
        (some "Nonexistent Course") (some 5)).1 = a ++ ("lesson " ++ toString 5) ++ b) :=
  ⟨(course_search_empty_results_message ⟨wStoreEmpty, []⟩ "q" none none rfl rfl).1 rfl rfl,
   (course_search_empty_results_message ⟨wStoreEmpty, []⟩ "q"
       (some "Nonexistent Course") (some 5) rfl rfl).2.1 "Nonexistent Course" rfl,
   (course_search_empty_results_message ⟨wStoreEmpty, []⟩ "q"
       (some "Nonexistent Course") (some 5) rfl rfl).2.2 5 rfl⟩

/-- Witness for C9 at a three-result provider and a tool with stale
citation state. -/
theorem course_search_sources_replace_witness :
    ((CourseSearchTool.execute ⟨wStoreSample, [⟨"old", none⟩]⟩ "q"
        none none).2.last_sources).length = 3 ∧
    (∃ s, ((CourseSearchTool.execute ⟨wStoreSample, [⟨"old", none⟩]⟩ "q"
        none none).2.last_sources)[2]? = some s ∧ s.text = "MCP Introduction") ∧
    (CourseSearchTool.execute ⟨wStoreSample, []⟩ "q" none none).2.last_sources =
      (CourseSearchTool.execute ⟨wStoreSample, [⟨"old", none⟩]⟩ "q"
        none none).2.last_sources := by
  have h := course_search_sources_replace ⟨wStoreSample, [⟨"old", none⟩]⟩ "q" none none 3
    rfl rfl rfl (by decide)
  exact ⟨h.1, h.2.1 2 ⟨"MCP Introduction", none, 0⟩ rfl, h.2.2 ⟨wStoreSample, []⟩ rfl⟩

/-- Witness for C10 at a client whose `tool_use` response holds only a
text block. -/
theorem tool_use_response_without_blocks_errors_witness :
    (generate_response wClientNoBlocks "Test" ["search_course_content"]
      (some wTmOk) 2).result = "Error executing tools. Please try again." ∧
    (generate_response wClientNoBlocks "Test" ["search_course_content"]
      (some wTmOk) 2).apiCalls.length = 1 :=
  tool_use_response_without_blocks_errors wClientNoBlocks "Test" ["search_course_content"]
    wTmOk 0 2 (by decide) (by decide) rfl rfl
